import Mathlib

/-!
Verification of the session-scoped guessing protocol of the ESP32
HTTP/WebSocket game server.

The definitions below are a shallow embedding of the Rust sources:
`src/guessing_game.rs` (the guess engine and the input decoder),
`src/utils.rs` (ordinal formatting and the time-derived random source),
`src/config.rs` (the payload cap) and the WebSocket handler closure of
`src/main.rs` (lines 105-206).
-/

set_option autoImplicit false

/-! ## Guess engine (`src/guessing_game.rs`) -/

/-- Embedding of `struct GuessingGame { guesses: u32, secret: u32, done: bool }`.
Both fields are `u32` in the source; they are embedded as `Nat` with the `u32`
width made explicit where arithmetic can overflow (the counter increment in
`guess`, which wraps modulo `2^32`). -/
structure GuessingGame where
  guesses : Nat
  secret : Nat
  done : Bool
deriving Repr, DecidableEq

/-- `2^32`, the size of the `u32` domain: the guess counter wraps modulo it,
and `str::parse::<u32>` rejects values at or above it. -/
def U32_MOD : Nat := 4294967296

/-- `GuessingGame::new(secret)`: `guesses = 0`, `done = false`. -/
def GuessingGame.new (secret : Nat) : GuessingGame :=
  ⟨0, secret, false⟩

/-- Embedding of `u32::cmp`: the three-way comparison `guess.cmp(&secret)`. -/
def natCmp (a b : Nat) : Ordering :=
  if a < b then Ordering.lt else if a = b then Ordering.eq else Ordering.gt

/-- Embedding of `GuessingGame::guess` (guessing_game.rs lines 25-42).
Returns the pair `(comparison, guess_count)` the Rust method returns, and the
updated game state (the Rust method mutates `self` in place). The `u32`
increment `self.guesses += 1` is embedded with its wrap-around semantics,
modulo `2^32`. -/
def GuessingGame.guess (g : GuessingGame) (x : Nat) : (Ordering × Nat) × GuessingGame :=
  if g.done then
    ((Ordering.eq, g.guesses), g)
  else
    let guesses := (g.guesses + 1) % U32_MOD
    let cmp := natCmp x g.secret
    if cmp = Ordering.eq then
      ((cmp, guesses), ⟨guesses, g.secret, true⟩)
    else
      ((cmp, guesses), ⟨guesses, g.secret, g.done⟩)

/-- Iterated submits: feed a list of guesses through `GuessingGame.guess`,
collecting the returned `(ordering, attempt_number)` pairs and the final state. -/
def runGuesses : GuessingGame → List Nat → List (Ordering × Nat) × GuessingGame
  | g, [] => ([], g)
  | g, x :: xs =>
    let step := g.guess x
    let rest := runGuesses step.2 xs
    (step.1 :: rest.1, rest.2)

/-! ## Input decoder (`GuessingGame::parse_guess`, guessing_game.rs lines 45-62) -/

/-- Rust `char::is_ascii_control`: `U+0000..=U+001F` or `U+007F`. -/
def isAsciiControl (c : Char) : Bool :=
  c.toNat ≤ 0x1F || c.toNat == 0x7F

/-- Rust `char::is_whitespace`: the Unicode `White_Space` property. -/
def rustIsWhitespace (c : Char) : Bool :=
  c.toNat == 0x09 || c.toNat == 0x0A || c.toNat == 0x0B || c.toNat == 0x0C ||
  c.toNat == 0x0D || c.toNat == 0x20 || c.toNat == 0x85 || c.toNat == 0xA0 ||
  c.toNat == 0x1680 || (0x2000 ≤ c.toNat && c.toNat ≤ 0x200A) ||
  c.toNat == 0x2028 || c.toNat == 0x2029 || c.toNat == 0x202F ||
  c.toNat == 0x205F || c.toNat == 0x3000

/-- The predicate passed to `trim_matches` in `parse_guess`:
`c.is_ascii_control() || c.is_whitespace()`. -/
def trimPred (c : Char) : Bool :=
  isAsciiControl c || rustIsWhitespace c

/-- Rust `str::trim_matches` with a `char` predicate: remove every matching
character from the start and from the end of the string. -/
def trimMatches (p : Char → Bool) (s : List Char) : List Char :=
  ((s.dropWhile p).reverse.dropWhile p).reverse

/-- Value of an ASCII decimal digit character, `none` on any other character. -/
def digitVal (c : Char) : Option Nat :=
  if 0x30 ≤ c.toNat && c.toNat ≤ 0x39 then some (c.toNat - 0x30) else none

/-- Accumulating decimal parse over a digit list. -/
def parseDigitsAux : Nat → List Char → Option Nat
  | acc, [] => some acc
  | acc, c :: cs =>
    match digitVal c with
    | some d => parseDigitsAux (acc * 10 + d) cs
    | none => none

/-- Parse a non-empty, all-digit string in base 10; anything else is `none`. -/
def parseDigits : List Char → Option Nat
  | [] => none
  | c :: cs => parseDigitsAux 0 (c :: cs)

/-- Embedding of `str::parse::<u32>`: an optional leading plus sign followed by
one or more decimal digits; a value of `2^32` or above is an overflow error. -/
def parseU32 : List Char → Option Nat
  | '+' :: rest =>
    match parseDigits rest with
    | some v => if v < U32_MOD then some v else none
    | none => none
  | s =>
    match parseDigits s with
    | some v => if v < U32_MOD then some v else none
    | none => none

/-- Embedding of `GuessingGame::parse_guess`: trim control characters and
whitespace from both ends, parse as `u32`, then require `(1..=100).contains`. -/
def GuessingGame.parse_guess (input : List Char) : Option Nat :=
  match parseU32 (trimMatches trimPred input) with
  | none => none
  | some number => if 1 ≤ number ∧ number ≤ 100 then some number else none

/-- Decimal rendering of a natural number, used as the test-side
`format(n)` for the decoder round-trip. -/
def natRepr (n : Nat) : List Char :=
  Nat.toDigits 10 n

/-! ## Ordinal formatting (`nth`, utils.rs lines 19-47) -/

/-- Embedding of `nth`: literal irregular forms for `0..=13`; for larger
values a suffix picked by `n % 10` appended to the decimal rendering. -/
def nth (n : Nat) : String :=
  match n with
  | 0 => "zeroth"
  | 1 => "first"
  | 2 => "second"
  | 3 => "third"
  | 4 => "fourth"
  | 5 => "fifth"
  | 6 => "sixth"
  | 7 => "seventh"
  | 8 => "eighth"
  | 9 => "ninth"
  | 10 => "10th"
  | 11 => "11th"
  | 12 => "12th"
  | 13 => "13th"
  | larger =>
    match larger % 10 with
    | 1 => toString larger ++ "st"
    | 2 => toString larger ++ "nd"
    | 3 => toString larger ++ "rd"
    | _ => toString larger ++ "th"

/-! ## Secret generation (main.rs line 110, utils.rs `rand`) -/

/-- `(rand() % 100) + 1` from main.rs line 110, with the value returned by the
time-derived source `rand()` left as a parameter `r`. -/
def secretFromRand (r : Nat) : Nat :=
  r % 100 + 1

/-! ## Session registry (`BTreeMap<i32, GuessingGame>` under a `Mutex`, main.rs line 105) -/

/-- The registry is modelled as an association list with unique keys; its
operations mirror the `BTreeMap` calls made by the handler. -/
abbrev Registry := List (Int × GuessingGame)

/-- `BTreeMap::get_mut` / lookup by session id. -/
def rlookup : Registry → Int → Option GuessingGame
  | [], _ => none
  | (k, g) :: rest, id => if k = id then some g else rlookup rest id

/-- `BTreeMap::insert`: replaces the value when the key is present. -/
def rinsert : Registry → Int → GuessingGame → Registry
  | [], id, g => [(id, g)]
  | (k, g0) :: rest, id, g =>
    if k = id then (k, g) :: rest else (k, g0) :: rinsert rest id g

/-- `BTreeMap::remove`: drops the entry for the key when present. -/
def rerase : Registry → Int → Registry
  | [], _ => []
  | (k, g0) :: rest, id => if k = id then rest else (k, g0) :: rerase rest id

/-! ## Protocol adapter (`ws_handler` closure, main.rs lines 107-206) -/

/-- `MAX_LEN` from config.rs: maximum accepted client payload in bytes. -/
def MAX_LEN : Nat := 8

/-- An outbound WebSocket frame produced by `ws.send`. -/
inductive WsFrame where
  | text (s : String)
  | close
deriving Repr, DecidableEq

/-- The observable actions of one handler invocation, in program order:
sends, the zero-length size probe `ws.recv(&mut [])`, and the payload read. -/
inductive BodyAction where
  | send (f : WsFrame)
  | recvProbe (len : Nat)
  | recvData
deriving Repr, DecidableEq

/-- How the handler invocation ends: `Ok(())`, `Err(..)`, or a Rust panic
(the `.unwrap()` on a missing registry entry at main.rs line 133). -/
inductive HandlerOutcome where
  | ok
  | err
  | fatal
deriving Repr, DecidableEq

/-- A transport event delivered to the handler closure. An open event carries
the value the time-derived source `rand()` returns during it; a message event
carries the raw payload bytes of the pending frame (whose length is what the
size probe reports). -/
inductive WsEvent where
  | opened (id : Int) (r : Nat)
  | closed (id : Int)
  | message (id : Int) (payload : List Nat)

/-- Result of one handler invocation: the registry after the call, the ordered
body actions, the outcome, and whether `GuessingGame::guess` was invoked. -/
structure HandlerResult where
  registry : Registry
  body : List BodyAction
  outcome : HandlerOutcome
  guessCalled : Bool
deriving Repr, DecidableEq

/-- The welcome text sent on a new connection (main.rs line 119). -/
def welcomeMsg : String :=
  "Welcome to the guessing game! Enter a number between 1 and 100"

/-- `CStr::from_bytes_until_nul`: the bytes before the first NUL byte, or an
error when the slice contains no NUL byte. -/
def bytesUntilNul (bs : List Nat) : Option (List Nat) :=
  if 0 ∈ bs then some (bs.takeWhile (fun b => b != 0)) else none

/-- Whether `b` is a UTF-8 continuation byte. -/
def utf8Cont (b : Nat) : Bool :=
  0x80 ≤ b && b ≤ 0xBF

/-- Strict UTF-8 decoding of a byte list to characters, as performed by
`CStr::to_str` (rejecting overlong forms, surrogates, and values above
`U+10FFFF`). -/
def utf8Decode : List Nat → Option (List Char)
  | [] => some []
  | b :: rest =>
    if b ≤ 0x7F then
      (utf8Decode rest).map (fun cs => Char.ofNat b :: cs)
    else if 0xC2 ≤ b && b ≤ 0xDF then
      match rest with
      | b2 :: rest2 =>
        if utf8Cont b2 then
          (utf8Decode rest2).map
            (fun cs => Char.ofNat ((b - 0xC0) * 0x40 + (b2 - 0x80)) :: cs)
        else none
      | [] => none
    else if 0xE0 ≤ b && b ≤ 0xEF then
      match rest with
      | b2 :: b3 :: rest2 =>
        let ok2 :=
          if b = 0xE0 then 0xA0 ≤ b2 && b2 ≤ 0xBF
          else if b = 0xED then 0x80 ≤ b2 && b2 ≤ 0x9F
          else utf8Cont b2
        if ok2 && utf8Cont b3 then
          (utf8Decode rest2).map
            (fun cs =>
              Char.ofNat ((b - 0xE0) * 0x1000 + (b2 - 0x80) * 0x40 + (b3 - 0x80)) :: cs)
        else none
      | _ => none
    else if 0xF0 ≤ b && b ≤ 0xF4 then
      match rest with
      | b2 :: b3 :: b4 :: rest2 =>
        let ok2 :=
          if b = 0xF0 then 0x90 ≤ b2 && b2 ≤ 0xBF
          else if b = 0xF4 then 0x80 ≤ b2 && b2 ≤ 0x8F
          else utf8Cont b2
        if ok2 && utf8Cont b3 && utf8Cont b4 then
          (utf8Decode rest2).map
            (fun cs =>
              Char.ofNat ((b - 0xF0) * 0x40000 + (b2 - 0x80) * 0x1000 +
                (b3 - 0x80) * 0x40 + (b4 - 0x80)) :: cs)
        else none
      | _ => none
    else none

/-- The branch of the handler that scores a validated guess
(main.rs lines 182-203): invoke `GuessingGame::guess` on the session stored
under `id` and format the reply; a win also sends a close frame. -/
def scoreGuess (reg : Registry) (id : Int) (session : GuessingGame)
    (userGuess len : Nat) : HandlerResult :=
  let res := session.guess userGuess
  match res.1.1 with
  | Ordering.gt =>
    ⟨rinsert reg id res.2,
      [BodyAction.recvProbe len, BodyAction.recvData,
        BodyAction.send (WsFrame.text ("Your " ++ nth res.1.2 ++ " guess was too high"))],
      HandlerOutcome.ok, true⟩
  | Ordering.lt =>
    ⟨rinsert reg id res.2,
      [BodyAction.recvProbe len, BodyAction.recvData,
        BodyAction.send (WsFrame.text ("Your " ++ nth res.1.2 ++ " guess was too low"))],
      HandlerOutcome.ok, true⟩
  | Ordering.eq =>
    ⟨rinsert reg id res.2,
      [BodyAction.recvProbe len, BodyAction.recvData,
        BodyAction.send (WsFrame.text
          ("You guessed " ++ toString res.2.secret ++ " on your " ++ nth res.1.2 ++
            " try! Refresh to play again")),
        BodyAction.send WsFrame.close],
      HandlerOutcome.ok, true⟩

/-- The slice `&buf[..len]` passed to `CStr::from_bytes_until_nul`: the first
`len` bytes of the zero-initialised 8-byte stack buffer after `ws.recv` wrote
the `len` payload bytes into it. -/
def recvSlice (payload : List Nat) : List Nat :=
  (payload ++ List.replicate (MAX_LEN - payload.length) 0).take payload.length

/-- The message-event path of the handler (main.rs lines 135-203), entered
after the session lookup succeeded: probe the pending length, reject oversized
payloads, read the payload into the zero-initialised 8-byte buffer, run the
two decode stages and the input decoder, then score the guess. -/
def handleMessage (reg : Registry) (id : Int) (payload : List Nat)
    (session : GuessingGame) : HandlerResult :=
  let len := payload.length
  if len > MAX_LEN then
    ⟨reg,
      [BodyAction.recvProbe len,
        BodyAction.send (WsFrame.text "Request too big"),
        BodyAction.send WsFrame.close],
      HandlerOutcome.err, false⟩
  else
    match bytesUntilNul (recvSlice payload) with
    | none =>
      ⟨reg,
        [BodyAction.recvProbe len, BodyAction.recvData,
          BodyAction.send (WsFrame.text "[CStr decode Error]")],
        HandlerOutcome.ok, false⟩
    | some bytes =>
      match utf8Decode bytes with
      | none =>
        ⟨reg,
          [BodyAction.recvProbe len, BodyAction.recvData,
            BodyAction.send (WsFrame.text "[UTF-8 Error]")],
          HandlerOutcome.ok, false⟩
      | some chars =>
        match GuessingGame.parse_guess chars with
        | none =>
          ⟨reg,
            [BodyAction.recvProbe len, BodyAction.recvData,
              BodyAction.send (WsFrame.text "Please enter a number between 1 and 100")],
            HandlerOutcome.ok, false⟩
        | some userGuess => scoreGuess reg id session userGuess len

/-- Embedding of the `ws_handler` closure (main.rs lines 107-206). An open
event inserts a fresh game with secret `(rand() % 100) + 1` and sends the
welcome frame; a close event removes the entry; a message event looks the
session up (panicking via `.unwrap()` when it is absent) and proceeds through
`handleMessage`. -/
def wsHandler (reg : Registry) (ev : WsEvent) : HandlerResult :=
  match ev with
  | WsEvent.opened id r =>
    ⟨rinsert reg id (GuessingGame.new (secretFromRand r)),
      [BodyAction.send (WsFrame.text welcomeMsg)], HandlerOutcome.ok, false⟩
  | WsEvent.closed id =>
    ⟨rerase reg id, [], HandlerOutcome.ok, false⟩
  | WsEvent.message id payload =>
    match rlookup reg id with
    | none => ⟨reg, [], HandlerOutcome.fatal, false⟩
    | some session => handleMessage reg id payload session

/-- The text and close frames sent on the wire, in order. -/
def sentFrames (r : HandlerResult) : List WsFrame :=
  r.body.filterMap fun a =>
    match a with
    | BodyAction.send f => some f
    | _ => none

/-! ## Lock trace (main.rs line 108 and the implicit guard drop at return) -/

/-- The actions of one handler invocation, with the registry lock acquisition
and release made explicit. -/
inductive TraceAction where
  | lock
  | unlock
  | send (f : WsFrame)
  | recvProbe (n : Nat)
  | recvData
deriving Repr, DecidableEq

/-- View a body action as a trace action. -/
def embedBody : BodyAction → TraceAction
  | BodyAction.send f => TraceAction.send f
  | BodyAction.recvProbe n => TraceAction.recvProbe n
  | BodyAction.recvData => TraceAction.recvData

/-- The full trace of a handler invocation: the guard is taken by
`guessing_games.lock().unwrap()` on the first line of the closure and dropped
only when the closure returns, so every body action sits between the lock and
the unlock. -/
def handlerTrace (r : HandlerResult) : List TraceAction :=
  TraceAction.lock :: r.body.map embedBody ++ [TraceAction.unlock]

/-- Scans a trace with a lock-held flag; `true` when some send happens while
the lock is held. -/
def anySendHeld : Bool → List TraceAction → Bool
  | _, [] => false
  | _, TraceAction.lock :: rest => anySendHeld true rest
  | _, TraceAction.unlock :: rest => anySendHeld false rest
  | held, TraceAction.send _ :: rest => held || anySendHeld held rest
  | held, TraceAction.recvProbe _ :: rest => anySendHeld held rest
  | held, TraceAction.recvData :: rest => anySendHeld held rest

/-- Scans a trace with a lock-held flag; `true` when every send happens while
the lock is held. -/
def sendsAllHeld : Bool → List TraceAction → Bool
  | _, [] => true
  | _, TraceAction.lock :: rest => sendsAllHeld true rest
  | _, TraceAction.unlock :: rest => sendsAllHeld false rest
  | held, TraceAction.send _ :: rest => held && sendsAllHeld held rest
  | held, TraceAction.recvProbe _ :: rest => sendsAllHeld held rest
  | held, TraceAction.recvData :: rest => sendsAllHeld held rest

/-! ## Concrete inputs used by witnesses and counterexamples -/

/-- A registry holding one session, used by concrete witness statements. -/
def wReg : Registry := [(1, GuessingGame.new 50)]

/-- A nine-byte payload (nine ASCII `1`s), above the 8-byte cap. -/
def bigPayload : List Nat := List.replicate 9 49

/-- A session with three recorded guesses, used to exhibit the effect of a
duplicate open event. -/
def staleGame : GuessingGame := ⟨3, 50, false⟩

/-- `2^32` copies of the guess `1`, used to exhibit the wrap-around of the
`u32` guess counter. -/
def manyGuesses : List Nat := List.replicate U32_MOD 1

/-! ## Helper lemmas -/

theorem natCmp_eq_lt {a b : Nat} : natCmp a b = Ordering.lt ↔ a < b := by
  unfold natCmp
  split_ifs with h1 h2 <;> simp_all

theorem natCmp_eq_gt {a b : Nat} : natCmp a b = Ordering.gt ↔ b < a := by
  unfold natCmp
  split_ifs with h1 h2 <;> simp_all
  all_goals omega

theorem natCmp_eq_eq {a b : Nat} : natCmp a b = Ordering.eq ↔ a = b := by
  unfold natCmp
  split_ifs with h1 h2 <;> simp_all
  all_goals omega

theorem guess_not_done {g : GuessingGame} {x : Nat} (hd : g.done = false)
    (hne : x ≠ g.secret) :
    g.guess x = ((natCmp x g.secret, (g.guesses + 1) % U32_MOD),
      ⟨(g.guesses + 1) % U32_MOD, g.secret, false⟩) := by
  have hcmp : ¬ natCmp x g.secret = Ordering.eq := fun h => hne (natCmp_eq_eq.mp h)
  unfold GuessingGame.guess
  rw [if_neg (by simp [hd])]
  simp only [if_neg hcmp]
  rw [hd]

theorem runGuesses_nonwinning : ∀ (gs : List Nat) (g : GuessingGame),
    g.done = false → (∀ x ∈ gs, x ≠ g.secret) →
    g.guesses + gs.length < U32_MOD →
    (runGuesses g gs).2 = ⟨g.guesses + gs.length, g.secret, false⟩ ∧
    (runGuesses g gs).1.map Prod.snd = List.range' (g.guesses + 1) gs.length := by
  intro gs
  induction gs with
  | nil =>
    intro g hd _ _
    obtain ⟨gu, se, dn⟩ := g
    simp only at hd
    subst hd
    exact ⟨rfl, rfl⟩
  | cons x xs ih =>
    intro g hd hne hbound
    have hbound1 : g.guesses + 1 < U32_MOD := by
      simp only [List.length_cons] at hbound
      omega
    have hstep := guess_not_done hd (hne x (by simp))
    rw [Nat.mod_eq_of_lt hbound1] at hstep
    have hbound2 : g.guesses + 1 + xs.length < U32_MOD := by
      simp only [List.length_cons] at hbound
      omega
    have hih := ih ⟨g.guesses + 1, g.secret, false⟩ rfl
      (fun y hy => hne y (by simp [hy])) hbound2
    simp only [runGuesses, hstep, List.length_cons]
    refine ⟨hih.1.trans ?_, ?_⟩
    · have harith : g.guesses + 1 + xs.length = g.guesses + (xs.length + 1) := by
        omega
      rw [harith]
    · simp only [List.map_cons, hih.2, List.range']

theorem runGuesses_nonwinning_wrap : ∀ (gs : List Nat) (g : GuessingGame),
    g.done = false → g.guesses < U32_MOD → (∀ x ∈ gs, x ≠ g.secret) →
    (runGuesses g gs).2.guesses = (g.guesses + gs.length) % U32_MOD := by
  intro gs
  induction gs with
  | nil =>
    intro g _ hlt _
    simp [runGuesses, Nat.mod_eq_of_lt hlt]
  | cons x xs ih =>
    intro g hd hlt hne
    have hstep := guess_not_done hd (hne x (by simp))
    have hlt2 : (g.guesses + 1) % U32_MOD < U32_MOD := by
      apply Nat.mod_lt
      unfold U32_MOD
      omega
    have hih := ih ⟨(g.guesses + 1) % U32_MOD, g.secret, false⟩ rfl hlt2
      (fun y hy => hne y (by simp [hy]))
    simp only [runGuesses, hstep, List.length_cons]
    rw [hih]
    show ((g.guesses + 1) % U32_MOD + xs.length) % U32_MOD =
      (g.guesses + (xs.length + 1)) % U32_MOD
    rw [Nat.mod_add_mod]
    congr 1
    omega

theorem runGuesses_done : ∀ (gs : List Nat) (g : GuessingGame), g.done = true →
    runGuesses g gs = (gs.map (fun _ => (Ordering.eq, g.guesses)), g) := by
  intro gs
  induction gs with
  | nil => intro g _; rfl
  | cons x xs ih =>
    intro g hd
    have hstep : g.guess x = ((Ordering.eq, g.guesses), g) := by
      unfold GuessingGame.guess
      rw [if_pos hd]
    simp only [runGuesses, hstep, ih g hd, List.map_cons]

theorem dropWhile_append_all {p : Char → Bool} {l r : List Char}
    (h : ∀ c ∈ l, p c = true) :
    List.dropWhile p (l ++ r) = List.dropWhile p r := by
  induction l with
  | nil => rfl
  | cons a t ih =>
    rw [List.cons_append, List.dropWhile_cons, h a (by simp)]
    exact ih (fun c hc => h c (by simp [hc]))

theorem dropWhile_cons_false {p : Char → Bool} {a : Char} {l : List Char}
    (h : p a = false) :
    List.dropWhile p (a :: l) = a :: l := by
  simp [List.dropWhile_cons, h]

theorem trim_pad (p : Char → Bool) (p1 m p2 : List Char)
    (h1 : ∀ c ∈ p1, p c = true) (h2 : ∀ c ∈ p2, p c = true)
    (hm : m ≠ []) (hmf : ∀ c ∈ m, p c = false) :
    trimMatches p (p1 ++ m ++ p2) = m := by
  obtain ⟨a, m1, rfl⟩ := List.exists_cons_of_ne_nil hm
  unfold trimMatches
  rw [List.append_assoc, dropWhile_append_all h1, List.cons_append,
    dropWhile_cons_false (hmf a (by simp)), ← List.cons_append,
    List.reverse_append,
    dropWhile_append_all (fun c hc => h2 c (List.mem_reverse.mp hc))]
  have hnn : (a :: m1).reverse ≠ [] := by simp
  obtain ⟨b, t, hbt⟩ := List.exists_cons_of_ne_nil hnn
  have hb : p b = false := by
    have hmem : b ∈ (a :: m1).reverse := by rw [hbt]; simp
    exact hmf b (List.mem_reverse.mp hmem)
  rw [hbt, dropWhile_cons_false hb, ← hbt, List.reverse_reverse]

theorem natRepr_facts : ∀ n, n < 101 →
    natRepr n ≠ [] ∧ ∀ c ∈ natRepr n, trimPred c = false := by
  decide

theorem parseU32_natRepr : ∀ n, n < 101 → parseU32 (natRepr n) = some n := by
  decide

/-! ## Claims -/

/-- Claim C1 counterexample: the counting conjunct fails for unbounded `k`
because the `u32` counter wraps. After `2^32` submits of the non-winning
guess `1` against the secret `50`, the stored `guess_count` is `0`, not
`2^32`. -/
theorem C1_cex_counter_wraps :
    (runGuesses (GuessingGame.new 50) manyGuesses).2.guesses ≠
      manyGuesses.length := by
  have hne : ∀ x ∈ manyGuesses, x ≠ (GuessingGame.new 50).secret := by
    intro x hx
    unfold manyGuesses at hx
    rw [List.eq_of_mem_replicate hx]
    decide
  have hlt : (GuessingGame.new 50).guesses < U32_MOD := by
    unfold U32_MOD
    show 0 < 4294967296
    omega
  have h := runGuesses_nonwinning_wrap manyGuesses (GuessingGame.new 50) rfl
    hlt hne
  have hlen : manyGuesses.length = U32_MOD := List.length_replicate U32_MOD 1
  rw [h, hlen]
  show (0 + U32_MOD) % U32_MOD ≠ U32_MOD
  rw [Nat.zero_add, Nat.mod_self]
  unfold U32_MOD
  omega

/-- Claim C1 (amended): for every engine with completed flag false and secret
in `[1,100]`, `guess g` returns `Less` iff `g < secret`, `Greater` iff
`g > secret`, and `Equal` iff `g = secret`; and after `k` submits none of
which equalled the secret, with `k < 2^32` so that the `u32` counter does not
wrap, the stored `guess_count` is `k` and the attempt numbers returned by the
successive submits are `1, 2, ..., k`. -/
theorem C1_guess_ordering_and_count :
    (∀ (g : GuessingGame) (x : Nat), g.done = false →
      1 ≤ g.secret → g.secret ≤ 100 →
      (((g.guess x).1.1 = Ordering.lt ↔ x < g.secret) ∧
        ((g.guess x).1.1 = Ordering.gt ↔ x > g.secret) ∧
        ((g.guess x).1.1 = Ordering.eq ↔ x = g.secret))) ∧
    (∀ (s : Nat) (gs : List Nat), 1 ≤ s → s ≤ 100 →
      gs.length < U32_MOD → (∀ x ∈ gs, x ≠ s) →
      (runGuesses (GuessingGame.new s) gs).2.guesses = gs.length ∧
      (runGuesses (GuessingGame.new s) gs).1.map Prod.snd =
        List.range' 1 gs.length) := by
  constructor
  · intro g x hd _ _
    have hres : (g.guess x).1.1 = natCmp x g.secret := by
      unfold GuessingGame.guess
      rw [if_neg (by simp [hd])]
      by_cases h : natCmp x g.secret = Ordering.eq <;> simp [h]
    rw [hres]
    exact ⟨natCmp_eq_lt, natCmp_eq_gt, natCmp_eq_eq⟩
  · intro s gs _ _ hk hne
    have hbound : (GuessingGame.new s).guesses + gs.length < U32_MOD := by
      show 0 + gs.length < U32_MOD
      omega
    have h := runGuesses_nonwinning gs (GuessingGame.new s) rfl hne hbound
    constructor
    · rw [h.1]
      simp [GuessingGame.new]
    · have hmap := h.2
      simpa [GuessingGame.new] using hmap

/-- Witness for C1 at a concrete engine and guess list. -/
theorem C1_guess_ordering_and_count_witness :
    (((GuessingGame.new 50).guess 75).1.1 = Ordering.gt ↔
      75 > (GuessingGame.new 50).secret) ∧
    (runGuesses (GuessingGame.new 50) [10, 20]).2.guesses = [10, 20].length :=
  ⟨(C1_guess_ordering_and_count.1 (GuessingGame.new 50) 75 rfl (by decide)
      (by decide)).2.1,
    (C1_guess_ordering_and_count.2 50 [10, 20] (by decide) (by decide)
      (by decide) (by decide)).1⟩

/-- Claim C2: once the completed flag is true, every further `guess` call
returns `(Equal, guess_count)` and leaves every field of the engine unchanged,
for any guess value and any number of repeated calls. -/
theorem C2_completed_idempotent :
    ∀ (g : GuessingGame), g.done = true →
      (∀ x : Nat, g.guess x = ((Ordering.eq, g.guesses), g)) ∧
      (∀ gs : List Nat,
        runGuesses g gs = (gs.map (fun _ => (Ordering.eq, g.guesses)), g)) := by
  intro g hd
  refine ⟨fun x => ?_, fun gs => runGuesses_done gs g hd⟩
  unfold GuessingGame.guess
  rw [if_pos hd]

/-- Witness for C2 at a concrete completed engine. -/
theorem C2_completed_idempotent_witness :
    (GuessingGame.mk 4 50 true).guess 99 =
      ((Ordering.eq, 4), GuessingGame.mk 4 50 true) :=
  (C2_completed_idempotent ⟨4, 50, true⟩ rfl).1 99

/-- Claim C3: `parse_guess s` returns `some n` exactly when `s`, after
trimming leading and trailing ASCII control characters and whitespace,
parses as a non-negative base-10 integer `n` (in the sense of
`str::parse::<u32>`) with `1 ≤ n ≤ 100`; the decimal rendering of any
`n` in `[1,100]` surrounded by arbitrary control/whitespace padding is
accepted as `n`; and `""`, `"abc"`, `"0"`, `"101"`, `"-5"` are rejected. -/
theorem C3_parse_guess_characterization :
    (∀ (s : List Char) (n : Nat),
      GuessingGame.parse_guess s = some n ↔
        (parseU32 (trimMatches trimPred s) = some n ∧ 1 ≤ n ∧ n ≤ 100)) ∧
    (∀ (n : Nat) (p1 p2 : List Char), 1 ≤ n → n ≤ 100 →
      (∀ c ∈ p1, trimPred c = true) → (∀ c ∈ p2, trimPred c = true) →
      GuessingGame.parse_guess (p1 ++ natRepr n ++ p2) = some n) ∧
    GuessingGame.parse_guess "".toList = none ∧
    GuessingGame.parse_guess "abc".toList = none ∧
    GuessingGame.parse_guess "0".toList = none ∧
    GuessingGame.parse_guess "101".toList = none ∧
    GuessingGame.parse_guess "-5".toList = none := by
  refine ⟨?_, ?_, by decide, by decide, by decide, by decide, by decide⟩
  · intro s n
    unfold GuessingGame.parse_guess
    cases hp : parseU32 (trimMatches trimPred s) with
    | none => simp
    | some m =>
      show (if 1 ≤ m ∧ m ≤ 100 then some m else none) = some n ↔
        some m = some n ∧ 1 ≤ n ∧ n ≤ 100
      by_cases hr : 1 ≤ m ∧ m ≤ 100
      · rw [if_pos hr]
        constructor
        · intro he
          obtain rfl := Option.some.inj he
          exact ⟨rfl, hr.1, hr.2⟩
        · intro hrhs
          exact hrhs.1
      · rw [if_neg hr]
        constructor
        · intro he
          exact absurd he (by simp)
        · intro hrhs
          obtain rfl := Option.some.inj hrhs.1
          exact absurd ⟨hrhs.2.1, hrhs.2.2⟩ hr
  · intro n p1 p2 hn1 hn2 hp1 hp2
    have hfacts := natRepr_facts n (by omega)
    have htrim := trim_pad trimPred p1 (natRepr n) p2 hp1 hp2 hfacts.1 hfacts.2
    unfold GuessingGame.parse_guess
    rw [htrim, parseU32_natRepr n (by omega)]
    show (if 1 ≤ n ∧ n ≤ 100 then some n else none) = some n
    rw [if_pos ⟨hn1, hn2⟩]

/-- Witness for C3: a concrete round-trip with tab and space padding, and a
concrete instance of the characterization. -/
theorem C3_parse_guess_characterization_witness :
    GuessingGame.parse_guess (['\t'] ++ natRepr 42 ++ [' ', ' ']) = some 42 :=
  C3_parse_guess_characterization.2.1 42 ['\t'] [' ', ' ']
    (by decide) (by decide) (by decide) (by decide)

/-- Claim C9 counterexample: the claimed table is false because
`nth 111 = "111st"` (111 mod 10 is 1, so the naive rule picks `"st"`),
not `"111th"`. -/
theorem C9_cex_ordinal_111 :
    ¬ (nth 1 = "first" ∧ nth 13 = "13th" ∧ nth 21 = "21st" ∧
        nth 22 = "22nd" ∧ nth 111 = "111th") := by
  decide

/-- Claim C9 (amended): the ordinal-formatting function satisfies
`nth 1 = "first"`, `nth 13 = "13th"`, `nth 21 = "21st"`, `nth 22 = "22nd"`,
and `nth 111 = "111st"`. -/
theorem C9_ordinal_values :
    nth 1 = "first" ∧ nth 13 = "13th" ∧ nth 21 = "21st" ∧
      nth 22 = "22nd" ∧ nth 111 = "111st" := by
  decide

theorem wsHandler_message_lookup {reg : Registry} {id : Int}
    {payload : List Nat} {s : GuessingGame} (h : rlookup reg id = some s) :
    wsHandler reg (WsEvent.message id payload) = handleMessage reg id payload s := by
  show (match rlookup reg id with
    | none => (⟨reg, [], HandlerOutcome.fatal, false⟩ : HandlerResult)
    | some session => handleMessage reg id payload session) =
      handleMessage reg id payload s
  rw [h]

theorem wsHandler_message_missing {reg : Registry} {id : Int}
    {payload : List Nat} (h : rlookup reg id = none) :
    wsHandler reg (WsEvent.message id payload) =
      ⟨reg, [], HandlerOutcome.fatal, false⟩ := by
  show (match rlookup reg id with
    | none => (⟨reg, [], HandlerOutcome.fatal, false⟩ : HandlerResult)
    | some session => handleMessage reg id payload session) =
      ⟨reg, [], HandlerOutcome.fatal, false⟩
  rw [h]

theorem rlookup_rinsert (reg : Registry) (id : Int) (g : GuessingGame) :
    rlookup (rinsert reg id g) id = some g := by
  induction reg with
  | nil => simp [rinsert, rlookup]
  | cons kv rest ih =>
    obtain ⟨k, g0⟩ := kv
    by_cases h : k = id
    · simp [rinsert, rlookup, h]
    · simp [rinsert, rlookup, h, ih]

theorem take_len_append {α : Type} (l r : List α) :
    (l ++ r).take l.length = l := by
  induction l with
  | nil => rfl
  | cons a t ih => simp [ih]

theorem recvSlice_eq (payload : List Nat) : recvSlice payload = payload := by
  unfold recvSlice
  exact take_len_append payload (List.replicate (MAX_LEN - payload.length) 0)

theorem sendsAllHeld_body (bs : List BodyAction) :
    sendsAllHeld true (bs.map embedBody ++ [TraceAction.unlock]) = true := by
  induction bs with
  | nil => rfl
  | cons a t ih => cases a <;> simp [sendsAllHeld, embedBody, ih]

/-- Claim C4: the secret installed at session creation is `(r % 100) + 1` for
the drawn value `r`, hence always in `[1,100]`, and `guess` never changes the
secret of an engine, so the secret keeps its creation value under every
operation. -/
theorem C4_secret_invariant :
    (∀ r : Nat, 1 ≤ secretFromRand r ∧ secretFromRand r ≤ 100) ∧
    (∀ (reg : Registry) (id : Int) (r : Nat),
      rlookup (wsHandler reg (WsEvent.opened id r)).registry id =
        some (GuessingGame.new (secretFromRand r))) ∧
    (∀ (g : GuessingGame) (x : Nat), ((g.guess x).2).secret = g.secret) := by
  refine ⟨fun r => ?_, fun reg id r => ?_, fun g x => ?_⟩
  · unfold secretFromRand
    have := Nat.mod_lt r (show 0 < 100 by omega)
    omega
  · exact rlookup_rinsert reg id (GuessingGame.new (secretFromRand r))
  · cases hd : g.done with
    | true => simp [GuessingGame.guess, hd]
    | false =>
      by_cases h2 : natCmp x g.secret = Ordering.eq <;>
        simp [GuessingGame.guess, hd, h2]

/-- Claim C5: on a message event for a registered session whose probed payload
length exceeds 8 bytes, the handler sends the text frame `"Request too big"`
followed by a close frame, fails the invocation, does not invoke
`GuessingGame::guess`, and leaves the registry (hence every session's
`guess_count`) unchanged. -/
theorem C5_oversized_payload :
    ∀ (reg : Registry) (id : Int) (payload : List Nat) (s : GuessingGame),
      rlookup reg id = some s → payload.length > MAX_LEN →
      sentFrames (wsHandler reg (WsEvent.message id payload)) =
          [WsFrame.text "Request too big", WsFrame.close] ∧
        (wsHandler reg (WsEvent.message id payload)).registry = reg ∧
        (wsHandler reg (WsEvent.message id payload)).guessCalled = false ∧
        (wsHandler reg (WsEvent.message id payload)).outcome = HandlerOutcome.err := by
  intro reg id payload s hl hlen
  rw [wsHandler_message_lookup hl]
  unfold handleMessage
  rw [if_pos hlen]
  exact ⟨rfl, rfl, rfl, rfl⟩

/-- Witness for C5: a nine-byte payload on a registered session. -/
theorem C5_oversized_payload_witness :
    sentFrames (wsHandler wReg (WsEvent.message 1 bigPayload)) =
        [WsFrame.text "Request too big", WsFrame.close] ∧
      (wsHandler wReg (WsEvent.message 1 bigPayload)).registry = wReg ∧
      (wsHandler wReg (WsEvent.message 1 bigPayload)).guessCalled = false ∧
      (wsHandler wReg (WsEvent.message 1 bigPayload)).outcome = HandlerOutcome.err :=
  C5_oversized_payload wReg 1 bigPayload (GuessingGame.new 50) (by decide)
    (by decide)

/-- Claim C6 counterexample: on an open event the welcome frame is sent while
the registry lock is held, so the lock is not released before messages go out
on the wire. -/
theorem C6_cex_send_while_locked :
    anySendHeld false (handlerTrace (wsHandler [] (WsEvent.opened 1 0))) = true := by
  decide

/-- Claim C6 (amended): the registry lock is taken on the first line of the
handler and released only when the handler returns, so every frame the handler
sends (and both receive steps) happens while the lock is held — the opposite
of the claimed discipline. -/
theorem C6_all_sends_under_lock :
    ∀ (reg : Registry) (ev : WsEvent),
      sendsAllHeld false (handlerTrace (wsHandler reg ev)) = true := by
  intro reg ev
  show sendsAllHeld false (TraceAction.lock ::
    (wsHandler reg ev).body.map embedBody ++ [TraceAction.unlock]) = true
  rw [show sendsAllHeld false (TraceAction.lock ::
      (wsHandler reg ev).body.map embedBody ++ [TraceAction.unlock]) =
      sendsAllHeld true ((wsHandler reg ev).body.map embedBody ++
        [TraceAction.unlock]) from rfl]
  exact sendsAllHeld_body (wsHandler reg ev).body

/-- Claim C7: a message event for a connection identifier with no registry
entry does not produce the error return the spec describes; the embedded
handler reaches the `.unwrap()` on `None` and ends in the panic outcome,
sending nothing. -/
theorem C7_missing_session_panics :
    (wsHandler [] (WsEvent.message 1 [53])).outcome = HandlerOutcome.fatal ∧
      (wsHandler [] (WsEvent.message 1 [53])).body = [] :=
  ⟨rfl, rfl⟩

/-- Claim C8 counterexample: an open event for an identifier already present
does not return the existing entry — the stored session for that identifier
changes (its `guess_count` drops from 3 to 0). -/
theorem C8_cex_reopen_replaces :
    rlookup (wsHandler [(1, staleGame)] (WsEvent.opened 1 0)).registry 1 ≠
      some staleGame := by
  decide

/-- Claim C8 (amended): on an open event for an already-present identifier,
`BTreeMap::insert` replaces the entry with a freshly created session
(`guess_count = 0`, `completed = false`, secret drawn from the new random
value); the previous session is discarded. -/
theorem C8_open_inserts_fresh :
    ∀ (reg : Registry) (id : Int) (r : Nat),
      rlookup (wsHandler reg (WsEvent.opened id r)).registry id =
        some (GuessingGame.new (secretFromRand r)) := by
  intro reg id r
  exact rlookup_rinsert reg id (GuessingGame.new (secretFromRand r))

/-- Claim C10: a message event for a registered session whose payload is at
most 8 bytes and contains no NUL byte is answered with the single text frame
`"[CStr decode Error]"`, no close frame, a successful return, no call to
`GuessingGame::guess`, and an unchanged registry; moreover a guess is only
ever scored when the payload contains a NUL byte. -/
theorem C10_no_nul_cstr_error :
    (∀ (reg : Registry) (id : Int) (payload : List Nat) (s : GuessingGame),
      rlookup reg id = some s → payload.length ≤ MAX_LEN →
      (∀ b ∈ payload, b ≠ 0) →
      sentFrames (wsHandler reg (WsEvent.message id payload)) =
          [WsFrame.text "[CStr decode Error]"] ∧
        (wsHandler reg (WsEvent.message id payload)).registry = reg ∧
        (wsHandler reg (WsEvent.message id payload)).outcome = HandlerOutcome.ok ∧
        (wsHandler reg (WsEvent.message id payload)).guessCalled = false) ∧
    (∀ (reg : Registry) (id : Int) (payload : List Nat),
      (wsHandler reg (WsEvent.message id payload)).guessCalled = true →
      0 ∈ payload) := by
  constructor
  · intro reg id payload s hl hlen hnz
    have hmem : ¬ 0 ∈ payload := fun h => hnz 0 h rfl
    have hbn : bytesUntilNul payload = none := by
      unfold bytesUntilNul
      rw [if_neg hmem]
    rw [wsHandler_message_lookup hl]
    unfold handleMessage
    rw [if_neg (by omega), recvSlice_eq, hbn]
    exact ⟨rfl, rfl, rfl, rfl⟩
  · intro reg id payload hcall
    by_cases hmem : 0 ∈ payload
    · exact hmem
    · exfalso
      have hbn : bytesUntilNul payload = none := by
        unfold bytesUntilNul
        rw [if_neg hmem]
      cases hl : rlookup reg id with
      | none =>
        rw [wsHandler_message_missing hl] at hcall
        exact absurd hcall (by simp)
      | some s =>
        rw [wsHandler_message_lookup hl] at hcall
        unfold handleMessage at hcall
        by_cases hlen : payload.length > MAX_LEN
        · rw [if_pos hlen] at hcall
          exact absurd hcall (by simp)
        · rw [if_neg hlen, recvSlice_eq, hbn] at hcall
          exact absurd hcall (by simp)

/-- Witness for C10: a one-byte payload (ASCII `5`, no NUL) on a registered
session. -/
theorem C10_no_nul_cstr_error_witness :
    sentFrames (wsHandler wReg (WsEvent.message 1 [53])) =
        [WsFrame.text "[CStr decode Error]"] ∧
      (wsHandler wReg (WsEvent.message 1 [53])).registry = wReg ∧
      (wsHandler wReg (WsEvent.message 1 [53])).outcome = HandlerOutcome.ok ∧
      (wsHandler wReg (WsEvent.message 1 [53])).guessCalled = false :=
  C10_no_nul_cstr_error.1 wReg 1 [53] (GuessingGame.new 50) (by decide)
    (by decide) (by decide)
